import Mathlib

/-!
Shallow embedding of `src/beginner/expense-tracker/main.py` (an SQLite-backed
expense tracker CLI) and verification of its specification claims.

Modelling conventions:
* SQLite `REAL` amounts (Python floats) are modelled as `ℚ`; every amount used
  in concrete witnesses is exactly representable as a binary float, so the
  rational semantics of comparison, summation and two-decimal formatting agree
  with the program's float semantics on those values.
* The store is the list of rows in rowid order; `SELECT ... WHERE id=?` with
  `fetchone` is `List.find?`, `DELETE WHERE id=?` is a filter, `UPDATE ...
  WHERE id=?` a map guarded on the id.
* The environment carries the strings produced by `datetime.now()` (the
  current `YYYY-MM-DD` date and the `%d %b %Y %H:%M:%S` timestamp) and a flag
  `logWriteOk` telling whether appending to an audit-log file succeeds; a
  failed append raises `OSError`, which the code's `except sqlite3.Error`
  does not catch.
* Uncaught Python exceptions (`ValueError` from `strptime` during `list`,
  `OSError` from audit-log writes) are the `.error` side of `Except PyErr`;
  a caught-and-reported condition is an `Output` value on the `.ok` side.
-/

namespace ExpenseTracker

/-- One row of the `expenses` table: `(id, date, description, amount)`. -/
structure Expense where
  id : Int
  date : String
  description : String
  amount : ℚ
deriving Repr, DecidableEq

/-- The mutable state touched by the program: the `expenses` table (in rowid
order) with the next auto-increment id, and the two append-only audit logs
(`deleted_expenses.log` and `update_expenses.log`), each a list of lines. -/
structure TrackerState where
  store : List Expense
  nextId : Int
  deletionLog : List String
  updateLog : List String
deriving Repr, DecidableEq

/-- Ambient facts of one invocation: the strings `datetime.now()` renders, and
whether appending to an audit-log file succeeds. -/
structure Env where
  today : String
  ts : String
  logWriteOk : Bool
deriving Repr, DecidableEq

/-- Python exceptions that escape the `except sqlite3.Error` handlers. -/
inductive PyErr where
  | valueError
  | osError
deriving Repr, DecidableEq

/-- The user-visible outcome each operation prints. -/
inductive Output where
  | errorEmptyDescription
  | errorNonPositiveAmount
  | addedOk
  | noExpensesRecorded
  | listing (count : Nat)
  | invalidMonth
  | totalAll (t : ℚ)
  | totalMonth (m : Int) (t : ℚ)
  | idNotFound
  | deletedOk
  | invalidDateFormat
  | nothingToUpdate
  | updatedOk
deriving Repr, DecidableEq

/-- The Python `str.isspace` characters relevant to `str.strip()` (ASCII). -/
def pyIsSpace (c : Char) : Bool :=
  c = ' ' || c = '\t' || c = '\n' || c = '\r' || c = '\x0b' || c = '\x0c'

/-- Model of Python `str.strip()`: drop whitespace from both ends. -/
def pyStrip (s : String) : String :=
  String.mk (((s.toList.dropWhile pyIsSpace).reverse.dropWhile pyIsSpace).reverse)

/-- Numeric value of a digit character. -/
def dVal (c : Char) : Nat := c.toNat - 48

/-- Gregorian leap-year rule (as in Python's `calendar`/`datetime`). -/
def isLeapYear (y : Nat) : Bool := y % 4 = 0 && (y % 100 ≠ 0 || y % 400 = 0)

/-- Number of days of month `m` of year `y`. -/
def daysInMonth (y m : Nat) : Nat :=
  if m = 2 then (if isLeapYear y then 29 else 28)
  else if m = 4 || m = 6 || m = 9 || m = 11 then 30
  else 31

/-- CPython `_strptime` `%Y`: exactly four digits. -/
def yearVal (a b c d : Char) : Option Nat :=
  if a.isDigit && b.isDigit && c.isDigit && d.isDigit then
    some (1000 * dVal a + 100 * dVal b + 10 * dVal c + dVal d)
  else none

/-- CPython `_strptime` `%m`, two-digit branch (`1[0-2]|0[1-9]`, i.e. 01–12). -/
def monthVal2 (a b : Char) : Option Nat :=
  if a.isDigit && b.isDigit then
    let v := 10 * dVal a + dVal b
    if 1 ≤ v && v ≤ 12 then some v else none
  else none

/-- CPython `_strptime` `%m`, one-digit branch (`[1-9]`). -/
def monthVal1 (a : Char) : Option Nat :=
  if a.isDigit && 1 ≤ dVal a then some (dVal a) else none

/-- CPython `_strptime` `%d`, two-digit branch (`3[01]|[12]\d|0[1-9]`, 01–31). -/
def dayVal2 (a b : Char) : Option Nat :=
  if a.isDigit && b.isDigit then
    let v := 10 * dVal a + dVal b
    if 1 ≤ v && v ≤ 31 then some v else none
  else none

/-- CPython `_strptime` `%d`, one-digit branch (`[1-9]`). -/
def dayVal1 (a : Char) : Option Nat :=
  if a.isDigit && 1 ≤ dVal a then some (dVal a) else none

/-- Combine the matched components as `datetime.strptime` does: the regex
match gives year/month/day fields, then the `datetime` constructor enforces
`MINYEAR ≤ year` and that the day exists in that month. -/
def combineYMD (y? m? d? : Option Nat) : Option (Nat × Nat × Nat) := do
  let y ← y?
  let m ← m?
  let d ← d?
  if 1 ≤ y && d ≤ daysInMonth y m then some (y, m, d) else none

/-- Model of `datetime.strptime(s, "%Y-%m-%d")` as a parser: four-digit year, dashes,
month and day written with one or two digits (per CPython's `_strptime`
regexes), full string consumed, day valid for the month.  Returns
`(year, month, day)` on success. -/
def pyYMD (s : String) : Option (Nat × Nat × Nat) :=
  match s.toList with
  | [a, b, c, d, '-', m1, m2, '-', e1, e2] =>
      combineYMD (yearVal a b c d) (monthVal2 m1 m2) (dayVal2 e1 e2)
  | [a, b, c, d, '-', m1, '-', e1, e2] =>
      combineYMD (yearVal a b c d) (monthVal1 m1) (dayVal2 e1 e2)
  | [a, b, c, d, '-', m1, m2, '-', e1] =>
      combineYMD (yearVal a b c d) (monthVal2 m1 m2) (dayVal1 e1)
  | [a, b, c, d, '-', m1, '-', e1] =>
      combineYMD (yearVal a b c d) (monthVal1 m1) (dayVal1 e1)
  | _ => none

/-- Function `validate_date` from the source: `True` iff `datetime.strptime(date_str,
'%Y-%m-%d')` does not raise. -/
def validate_date (date_str : String) : Bool := (pyYMD date_str).isSome

/-- The month component a date string reports under Python's parse. -/
def pyMonth (s : String) : Option Nat := (pyYMD s).map (fun x => x.2.1)

/-- SQLite `strftime('%m', s)` on a date-shaped string, as observed on the
library the program uses: the string must be exactly `DDDD-DD-DD` digits with
month field 01–12 and day field 01–31; the raw month field is then returned
with no calendar validation of the day (`'2023-02-30'` yields `'02'`), and
anything else (unpadded fields, `'00'` fields, non-digits) yields NULL.
SQLite's further input forms (bare julian-day numbers, trailing time-of-day)
cannot be produced by the program and are outside the model. -/
def sqlite_strftime_m (s : String) : Option String :=
  match s.toList with
  | [a, b, c, d, '-', m1, m2, '-', e1, e2] =>
      if a.isDigit && b.isDigit && c.isDigit && d.isDigit
          && m1.isDigit && m2.isDigit && e1.isDigit && e2.isDigit then
        let m := 10 * dVal m1 + dVal m2
        let dy := 10 * dVal e1 + dVal e2
        if 1 ≤ m && m ≤ 12 && 1 ≤ dy && dy ≤ 31 then some (String.mk [m1, m2])
        else none
      else none
  | _ => none

/-- Two-digit zero-padded rendering of a natural number below 100. -/
def pad2Nat (n : Nat) : String :=
  String.mk [Char.ofNat (48 + n / 10), Char.ofNat (48 + n % 10)]

/-- Model of the Python format spec `02d`: zero-padded to width two for
`0 ≤ m < 100`, plain rendering otherwise. -/
def pad2Int (m : Int) : String :=
  if 0 ≤ m ∧ m < 100 then pad2Nat m.toNat else toString m

/-- Round to the nearest integer, ties to even (IEEE/Python rounding). -/
def roundHalfEven (q : ℚ) : ℤ :=
  let f := ⌊q⌋
  if q - f < 1 / 2 then f
  else if q - f > 1 / 2 then f + 1
  else if f % 2 = 0 then f else f + 1

/-- Model of the Python format spec `.2f` on exact rationals: round `100·x` half-even
and print with two decimals.  (Exact for every float with a short decimal
representation; `-0.00` is rendered `0.00`, a difference no claim touches.) -/
def fmt2 (q : ℚ) : String :=
  let c := roundHalfEven (q * 100)
  (if c < 0 then "-" else "") ++ toString (c.natAbs / 100) ++ "." ++ pad2Nat (c.natAbs % 100)

/-- Sum of the amounts of a list of rows (`SELECT SUM(amount)` on a non-empty
selection). -/
def sumAmounts (l : List Expense) : ℚ := (l.map (·.amount)).sum

deriving instance DecidableEq for Except

/-- The spec's data-model invariant: description never empty or
whitespace-only, amount strictly positive, date accepted by the program's own
date parse. -/
def Inv (st : TrackerState) : Prop :=
  ∀ e ∈ st.store,
    pyStrip e.description ≠ "" ∧ 0 < e.amount ∧ (pyYMD e.date).isSome = true

/-- The date part of the invariant alone. -/
def DateInv (st : TrackerState) : Prop :=
  ∀ e ∈ st.store, (pyYMD e.date).isSome = true

/-- Whether an operation finished without an uncaught Python exception. -/
def isOk : Except PyErr Output → Bool
  | .ok _ => true
  | .error _ => false

/-- A date string in strictly zero-padded `YYYY-MM-DD` form denoting a real
calendar date: both SQLite's lexical screen and Python's parse accept it. -/
def strictValidDate (s : String) : Bool :=
  (sqlite_strftime_m s).isSome && validate_date s

/-- Method `add_expense(description, amount)`: validate, then insert one row dated
today.  The raw (unstripped) description is what gets stored. -/
def add_expense (env : Env) (st : TrackerState) (description : String)
    (amount : ℚ) : Except PyErr Output × TrackerState :=
  if pyStrip description = "" then (.ok .errorEmptyDescription, st)
  else if amount ≤ 0 then (.ok .errorNonPositiveAmount, st)
  else
    (.ok .addedOk,
     { st with
        store := st.store ++ [⟨st.nextId, env.today, description, amount⟩]
        nextId := st.nextId + 1 })

/-- The per-row body of the `list_expenses` loop: `datetime.strptime(date,
"%Y-%m-%d")` raises `ValueError` on the first row whose date does not parse;
the `except sqlite3.Error` handler does not catch it. -/
def listLoop : List Expense → Except PyErr Unit
  | [] => .ok ()
  | e :: rest =>
      match pyYMD e.date with
      | none => .error .valueError
      | some _ => listLoop rest

/-- Method `list_expenses()`: empty store reports "no expenses"; otherwise each row's
date is re-parsed for display (the formatted table itself is presentation) and
the row count is printed. -/
def list_expenses (st : TrackerState) : Except PyErr Output × TrackerState :=
  if st.store.isEmpty then (.ok .noExpensesRecorded, st)
  else
    match listLoop st.store with
    | .error e => (.error e, st)
    | .ok _ => (.ok (.listing st.store.length), st)

/-- Method `get_total_expenses(month)`: validate the month before any store access,
then `SELECT SUM(amount)` (over rows whose `strftime('%m', date)` equals the
zero-padded month when a month is given); a NULL sum (no matching rows) is the
"no expenses" outcome. -/
def get_total_expenses (st : TrackerState) (month : Option Int) :
    Except PyErr Output × TrackerState :=
  match month with
  | some m =>
      if m < 1 || m > 12 then (.ok .invalidMonth, st)
      else
        let matching := st.store.filter
          (fun e => sqlite_strftime_m e.date == some (pad2Int m))
        if matching.isEmpty then (.ok .noExpensesRecorded, st)
        else (.ok (.totalMonth m (sumAmounts matching)), st)
  | none =>
      if st.store.isEmpty then (.ok .noExpensesRecorded, st)
      else (.ok (.totalAll (sumAmounts st.store)), st)

/-- Method `check_id`: `SELECT * FROM expenses WHERE id=?` with `fetchone`, i.e. the
first row (in rowid order) with the given id, if any. -/
def check_id (st : TrackerState) (expense_id : Int) : Option Expense :=
  st.store.find? (fun e => e.id == expense_id)

/-- The deletion-log line: id, stored date, description, two-decimal amount
and deletion timestamp, dash-separated, ending in a newline. -/
def deleted_expense_log (expense_id : Int) (e : Expense) (ts : String) : String :=
  toString expense_id ++ ": " ++ e.date ++ " - " ++ e.description ++ " - $"
    ++ fmt2 e.amount ++ " - " ++ ts ++ "\n"

/-- Method `delete_expense(expense_id)`: look the id up; if found, append the audit
line to `deleted_expenses.log` and only then run the `DELETE`.  A failing log
append raises `OSError` before the `DELETE` executes, so the store is
untouched (and the connection's pending transaction, empty at that point, is
rolled back). -/
def delete_expense (env : Env) (st : TrackerState) (expense_id : Int) :
    Except PyErr Output × TrackerState :=
  match check_id st expense_id with
  | none => (.ok .idNotFound, st)
  | some e =>
      if env.logWriteOk then
        (.ok .deletedOk,
         { st with
            store := st.store.filter (fun x => !(x.id == expense_id))
            deletionLog := st.deletionLog ++ [deleted_expense_log expense_id e env.ts] })
      else (.error .osError, st)

/-- The changed-field segments of an update-log line, in the code's order
(amount, description, date); a supplied field equal to the stored value
contributes nothing. -/
def update_log_segments (e : Expense) (amount : Option ℚ)
    (description : Option String) (date : Option String) : String :=
  (match amount with
   | some a => if e.amount ≠ a then
        "Amount: $" ++ fmt2 e.amount ++ " -> $" ++ fmt2 a ++ ", " else ""
   | none => "")
  ++ (match description with
      | some d => if e.description ≠ d then
           "Description: '" ++ e.description ++ "' -> '" ++ d ++ "', " else ""
      | none => "")
  ++ (match date with
      | some d => if e.date ≠ d then
           "Date: " ++ e.date ++ " -> " ++ d ++ ", " else ""
      | none => "")

/-- Model of Python `str.rstrip(", ")`: drop trailing commas and spaces. -/
def rstripCommaSpace (s : String) : String :=
  String.mk (s.toList.reverse.dropWhile (fun c => c = ',' || c = ' ')).reverse

/-- The update-log line: header with id and timestamp, the changed-field
segments, then `rstrip(", ")` and a newline. -/
def updated_log_line (expense_id : Int) (e : Expense) (ts : String)
    (amount : Option ℚ) (description : Option String) (date : Option String) :
    String :=
  rstripCommaSpace ("Updated Expense ID " ++ toString expense_id ++ " - " ++ ts
    ++ ": " ++ update_log_segments e amount description date) ++ "\n"

/-- Apply the supplied fields of an update to one row. -/
def applyPatch (e : Expense) (amount : Option ℚ) (description : Option String)
    (date : Option String) : Expense :=
  { e with
     amount := amount.getD e.amount
     description := description.getD e.description
     date := date.getD e.date }

/-- The tail of `update_expense` once the id is found and the date (if any)
validated: run the `UPDATE` and `commit`, then append the log line.  A failing
log append raises `OSError` after the commit, so the store mutation persists
while the log is unchanged. -/
def updateApply (env : Env) (st : TrackerState) (expense_id : Int) (e : Expense)
    (amount : Option ℚ) (description : Option String) (date : Option String) :
    Except PyErr Output × TrackerState :=
  let st1 := { st with
    store := st.store.map (fun x =>
      if x.id == expense_id then applyPatch x amount description date else x) }
  if env.logWriteOk then
    (.ok .updatedOk,
     { st1 with
        updateLog := st1.updateLog
          ++ [updated_log_line expense_id e env.ts amount description date] })
  else (.error .osError, st1)

/-- Method `update_expense(expense_id, amount, description, date)`: look the id up;
validate the date if supplied; if no field at all was supplied report "nothing
to update"; otherwise run the dynamic `UPDATE` and log. -/
def update_expense (env : Env) (st : TrackerState) (expense_id : Int)
    (amount : Option ℚ) (description : Option String) (date : Option String) :
    Except PyErr Output × TrackerState :=
  match check_id st expense_id with
  | none => (.ok .idNotFound, st)
  | some e =>
      match date with
      | some d =>
          if validate_date d then updateApply env st expense_id e amount description date
          else (.ok .invalidDateFormat, st)
      | none =>
          if amount.isNone && description.isNone then (.ok .nothingToUpdate, st)
          else updateApply env st expense_id e amount description none

/-- A successful id lookup on a store with pairwise-distinct ids (the primary
key property) returns a member row with that id, and that row is the only one
carrying the id. -/
theorem find?_id_unique (st : TrackerState) (eid : Int) (e : Expense)
    (hf : check_id st eid = some e)
    (hnd : (st.store.map (·.id)).Nodup) :
    e ∈ st.store ∧ e.id = eid ∧ ∀ x ∈ st.store, x.id = eid → x = e := by
  have hf' : st.store.find? (fun x => x.id == eid) = some e := hf
  have hmem : e ∈ st.store := List.mem_of_find?_eq_some hf'
  have hbeq := List.find?_some (p := fun x : Expense => x.id == eid) hf'
  have heid : e.id = eid := by simpa using hbeq
  refine ⟨hmem, heid, ?_⟩
  intro x hx hxid
  exact List.inj_on_of_nodup_map hnd hx hmem (by rw [hxid, heid])

/-- The one row with the looked-up id can be split out of the store, and
filtering that id away removes it and keeps everything else. -/
theorem store_split_of_find? (st : TrackerState) (eid : Int) (e : Expense)
    (hf : check_id st eid = some e)
    (hnd : (st.store.map (·.id)).Nodup) :
    ∃ pre post, st.store = pre ++ e :: post ∧
      st.store.filter (fun x => !(x.id == eid)) = pre ++ post := by
  obtain ⟨hmem, heid, _⟩ := find?_id_unique st eid e hf hnd
  obtain ⟨pre, post, hsplit⟩ := List.append_of_mem hmem
  refine ⟨pre, post, hsplit, ?_⟩
  have hnd' : ((pre ++ e :: post).map (·.id)).Nodup := by
    rw [← hsplit]; exact hnd
  have h1 : (pre.map (·.id) ++ e.id :: post.map (·.id)).Nodup := by
    simpa using hnd'
  have hnotin : e.id ∉ pre.map (·.id) ++ post.map (·.id) :=
    (List.nodup_cons.mp (List.nodup_middle.mp h1)).1
  have hkeep : ∀ x, x ∈ pre ++ post → (!(x.id == eid)) = true := by
    intro x hx
    have hxid : x.id ≠ eid := by
      intro hcon
      apply hnotin
      rw [List.mem_append] at hx ⊢
      rcases hx with hx | hx
      · exact Or.inl (List.mem_map.mpr ⟨x, hx, by rw [hcon, heid]⟩)
      · exact Or.inr (List.mem_map.mpr ⟨x, hx, by rw [hcon, heid]⟩)
    simp [hxid]
  have hdrop : (!(e.id == eid)) = false := by simp [heid]
  rw [hsplit, List.filter_append, List.filter_cons, hdrop]
  simp only [Bool.false_eq_true, if_false]
  rw [List.filter_eq_self.mpr (fun x hx => hkeep x (List.mem_append_left _ hx)),
      List.filter_eq_self.mpr (fun x hx => hkeep x (List.mem_append_right _ hx))]

/-! ## Claim theorems -/

/-- C4: for an id present in a store with distinct ids, `delete(id)` appends
exactly one line — id, pre-delete date, description, two-decimal amount,
timestamp — to the deletion log, leaves the update log alone, and removes
exactly the looked-up row (count drops by one, all other rows unchanged in
order); and when the log append fails the operation raises instead and the
row is not deleted (the whole state is unchanged). -/
theorem C4_delete_logs_before_removing (env : Env) (st : TrackerState)
    (eid : Int) (e : Expense) (hf : check_id st eid = some e)
    (hnd : (st.store.map (·.id)).Nodup) :
    (env.logWriteOk = true →
       (delete_expense env st eid).1 = .ok .deletedOk ∧
       (delete_expense env st eid).2.deletionLog
         = st.deletionLog ++ [deleted_expense_log eid e env.ts] ∧
       (delete_expense env st eid).2.updateLog = st.updateLog ∧
       (delete_expense env st eid).2.store.length + 1 = st.store.length ∧
       ∃ pre post, st.store = pre ++ e :: post ∧
         (delete_expense env st eid).2.store = pre ++ post) ∧
    (env.logWriteOk = false →
       delete_expense env st eid = (.error .osError, st)) := by
  obtain ⟨pre, post, hsplit, hfilter⟩ := store_split_of_find? st eid e hf hnd
  constructor
  · intro hlog
    refine ⟨by simp [delete_expense, hf, hlog], by simp [delete_expense, hf, hlog],
      by simp [delete_expense, hf, hlog], ?_, pre, post, hsplit, ?_⟩
    · have hst : (delete_expense env st eid).2.store = pre ++ post := by
        simp only [delete_expense, hf, hlog, if_true]
        exact hfilter
      rw [hst, hsplit]
      simp [List.length_append]
      omega
    · simp only [delete_expense, hf, hlog, if_true]
      exact hfilter
  · intro hlog
    simp [delete_expense, hf, hlog]

/-- Witness for C4 on a two-row store. -/
theorem C4_witness :
    (delete_expense ⟨"2024-01-20", "TS", true⟩
        ⟨[⟨1, "2024-01-15", "Coffee", 9/2⟩, ⟨2, "2024-01-16", "Tea", 3⟩],
         3, [], []⟩ 1).1 = .ok .deletedOk ∧
    (delete_expense ⟨"2024-01-20", "TS", true⟩
        ⟨[⟨1, "2024-01-15", "Coffee", 9/2⟩, ⟨2, "2024-01-16", "Tea", 3⟩],
         3, [], []⟩ 1).2.deletionLog
      = [deleted_expense_log 1 ⟨1, "2024-01-15", "Coffee", 9/2⟩ "TS"] := by
  have h := (C4_delete_logs_before_removing ⟨"2024-01-20", "TS", true⟩
    ⟨[⟨1, "2024-01-15", "Coffee", 9/2⟩, ⟨2, "2024-01-16", "Tea", 3⟩], 3, [], []⟩
    1 ⟨1, "2024-01-15", "Coffee", 9/2⟩ rfl (by decide)).1 rfl
  exact ⟨h.1, by simpa using h.2.1⟩

/-- C1 counterexample: on a record whose description is already `X`,
`update(id, description=X)` does not signal "nothing to update" — it reports
a successful update and appends a (header-only) line to the update log. -/
theorem C1_counterexample :
    (update_expense ⟨"2024-01-20", "20 Jan 2024 10:00:00", true⟩
        ⟨[⟨1, "2024-01-15", "X", 5⟩], 2, [], []⟩ 1 none (some "X") none).1
      ≠ .ok .nothingToUpdate ∧
    (update_expense ⟨"2024-01-20", "20 Jan 2024 10:00:00", true⟩
        ⟨[⟨1, "2024-01-15", "X", 5⟩], 2, [], []⟩ 1 none (some "X") none).1
      = .ok .updatedOk ∧
    (update_expense ⟨"2024-01-20", "20 Jan 2024 10:00:00", true⟩
        ⟨[⟨1, "2024-01-15", "X", 5⟩], 2, [], []⟩ 1 none (some "X") none).2.updateLog
      = ["Updated Expense ID 1 - 20 Jan 2024 10:00:00:\n"] := by decide

/-- C1 (amended): only a call supplying no field at all signals "nothing to
update" and leaves the state untouched; a call whose supplied fields all equal
the stored values still runs the `UPDATE` (leaving the stored values
unchanged), reports a successful update, and appends one header-only log line
(no field segments) to the update log. -/
theorem C1_noop_update_still_logs (env : Env) (st : TrackerState) (eid : Int)
    (e : Expense) (hf : check_id st eid = some e)
    (hnd : (st.store.map (·.id)).Nodup) :
    update_expense env st eid none none none = (.ok .nothingToUpdate, st) ∧
    (∀ a dsc dt,
       (a = none ∨ a = some e.amount) →
       (dsc = none ∨ dsc = some e.description) →
       (dt = none ∨ (dt = some e.date ∧ validate_date e.date = true)) →
       (a.isSome = true ∨ dsc.isSome = true ∨ dt.isSome = true) →
       env.logWriteOk = true →
       update_expense env st eid a dsc dt =
         (.ok .updatedOk,
          { st with updateLog := st.updateLog
              ++ [rstripCommaSpace ("Updated Expense ID " ++ toString eid
                    ++ " - " ++ env.ts ++ ": ") ++ "\n"] })) := by
  obtain ⟨hmem, heid, huniq⟩ := find?_id_unique st eid e hf hnd
  constructor
  · simp [update_expense, hf]
  · intro a dsc dt ha hdsc hdt hsome hlog
    have hpatch : applyPatch e a dsc dt = e := by
      rcases ha with rfl | rfl <;> rcases hdsc with rfl | rfl <;>
        rcases hdt with rfl | ⟨rfl, _⟩ <;> simp [applyPatch]
    have hmap : ∀ dt', applyPatch e a dsc dt' = e →
        st.store.map (fun x =>
          if x.id == eid then applyPatch x a dsc dt' else x) = st.store := by
      intro dt' hp
      have := List.map_congr_left (l := st.store)
        (f := fun x => if x.id == eid then applyPatch x a dsc dt' else x)
        (g := id) ?_
      · simpa using this
      · intro x hx
        by_cases hxid : (x.id == eid) = true
        · have hxe : x = e := huniq x hx (by simpa using hxid)
          simp [hxid, hxe, hp]
        · simp [hxid]
    have hseg : update_log_segments e a dsc dt = "" := by
      rcases ha with rfl | rfl <;> rcases hdsc with rfl | rfl <;>
        rcases hdt with rfl | ⟨rfl, _⟩ <;> simp [update_log_segments]
    have hline : updated_log_line eid e env.ts a dsc dt
        = rstripCommaSpace ("Updated Expense ID " ++ toString eid ++ " - "
            ++ env.ts ++ ": ") ++ "\n" := by
      rw [updated_log_line, hseg]
      simp
    rcases hdt with rfl | ⟨rfl, hval⟩
    · have hseg' : update_log_segments e a dsc none = "" := hseg
      have hnotboth : (a.isNone && dsc.isNone) = false := by
        rcases hsome with h | h | h
        · cases a <;> simp_all
        · cases dsc <;> simp_all
        · simp at h
      simp only [update_expense, hf]
      rw [hnotboth]
      simp only [Bool.false_eq_true, if_false, updateApply, hlog, if_true]
      rw [hmap none hpatch, hline]
    · simp only [update_expense, hf, hval, if_true, updateApply, hlog]
      rw [hmap (some e.date) hpatch, hline]

/-- Witness for C1 (amended): both branches on a concrete store. -/
theorem C1_witness :
    update_expense ⟨"2024-01-20", "20 Jan 2024 10:00:00", true⟩
        ⟨[⟨1, "2024-01-15", "X", 5⟩], 2, [], []⟩ 1 none none none
      = (.ok .nothingToUpdate, ⟨[⟨1, "2024-01-15", "X", 5⟩], 2, [], []⟩) ∧
    update_expense ⟨"2024-01-20", "20 Jan 2024 10:00:00", true⟩
        ⟨[⟨1, "2024-01-15", "X", 5⟩], 2, [], []⟩ 1 (some 5) (some "X")
        (some "2024-01-15")
      = (.ok .updatedOk,
         ⟨[⟨1, "2024-01-15", "X", 5⟩], 2, [],
          ["Updated Expense ID 1 - 20 Jan 2024 10:00:00:\n"]⟩) := by
  have h := C1_noop_update_still_logs ⟨"2024-01-20", "20 Jan 2024 10:00:00", true⟩
    ⟨[⟨1, "2024-01-15", "X", 5⟩], 2, [], []⟩ 1 ⟨1, "2024-01-15", "X", 5⟩
    (by decide) (by decide)
  refine ⟨h.1, ?_⟩
  have h2 := h.2 (some 5) (some "X") (some "2024-01-15") (Or.inr rfl)
    (Or.inr rfl) (Or.inr ⟨rfl, by decide⟩) (Or.inl rfl) rfl
  rw [h2]
  decide

/-! ## Claim theorems (continued) -/

/-- C2 counterexample: a two-operation sequence from the empty store — a
valid `add` followed by `update(id, amount=-5)` — leaves a stored record with
a non-positive amount, violating the claimed invariant. -/
theorem C2_counterexample :
    (update_expense ⟨"2024-01-20", "T", true⟩
        (add_expense ⟨"2024-01-20", "T", true⟩ ⟨[], 1, [], []⟩ "Coffee" 9).2
        1 (some (-5)) none none).2.store
      = [⟨1, "2024-01-20", "Coffee", -5⟩] ∧
    ¬ (0 : ℚ) < -5 := by decide

/-- C2 (amended): `add` and `delete` preserve the full invariant (`add`
establishes it for the inserted row given that the clock renders a parseable
date), and `update` preserves the valid-date part — any date it stores passed
`validate_date` — but `update` does not guard amount or description, so it
can break positivity and non-emptiness (see the counterexample). -/
theorem C2_ops_preserve_invariant (env : Env) (st : TrackerState)
    (htoday : (pyYMD env.today).isSome = true) :
    (Inv st → ∀ d a, Inv (add_expense env st d a).2) ∧
    (Inv st → ∀ eid, Inv (delete_expense env st eid).2) ∧
    (DateInv st → ∀ eid a dsc dt, DateInv (update_expense env st eid a dsc dt).2) := by
  refine ⟨?_, ?_, ?_⟩
  · intro hInv d a
    by_cases h1 : pyStrip d = ""
    · simpa [Inv, add_expense, h1] using hInv
    · by_cases h2 : a ≤ 0
      · simpa [Inv, add_expense, h1, h2] using hInv
      · have hstore : (add_expense env st d a).2.store
            = st.store ++ [⟨st.nextId, env.today, d, a⟩] := by
          simp [add_expense, h1, h2]
        intro e he
        rw [hstore] at he
        rcases List.mem_append.mp he with he | he
        · exact hInv e he
        · simp only [List.mem_singleton] at he
          subst he
          exact ⟨h1, not_le.mp h2, htoday⟩
  · intro hInv eid
    rcases hc : check_id st eid with _ | e
    · simpa [Inv, delete_expense, hc] using hInv
    · by_cases hl : env.logWriteOk
      · intro x hx
        have hstore : (delete_expense env st eid).2.store
            = st.store.filter (fun y => !(y.id == eid)) := by
          simp [delete_expense, hc, hl]
        rw [hstore] at hx
        exact hInv x (List.mem_of_mem_filter hx)
      · simp only [Bool.not_eq_true] at hl
        simpa [Inv, delete_expense, hc, hl] using hInv
  · intro hInv eid a dsc dt
    rcases hc : check_id st eid with _ | e
    · simpa [DateInv, update_expense, hc] using hInv
    · have happly : ∀ dt',
          (dt' = none ∨ ∃ d, dt' = some d ∧ validate_date d = true) →
          DateInv (updateApply env st eid e a dsc dt').2 := by
        intro dt' hdt' x hx
        have hstore : (updateApply env st eid e a dsc dt').2.store
            = st.store.map (fun y =>
                if y.id == eid then applyPatch y a dsc dt' else y) := by
          by_cases hl : env.logWriteOk <;> simp [updateApply, hl]
        rw [hstore] at hx
        obtain ⟨y, hy, hxy⟩ := List.mem_map.mp hx
        by_cases hyid : (y.id == eid) = true
        · rw [if_pos hyid] at hxy
          subst hxy
          rcases hdt' with rfl | ⟨d, rfl, hval⟩
          · simpa [applyPatch] using hInv y hy
          · simpa [applyPatch, validate_date] using hval
        · rw [if_neg hyid] at hxy
          subst hxy
          exact hInv y hy
      rcases dt with _ | d
      · by_cases hno : (a.isNone && dsc.isNone) = true
        · simpa [DateInv, update_expense, hc, hno] using hInv
        · have hno' : (a.isNone && dsc.isNone) = false := by
            cases a <;> cases dsc <;> simp_all
          have h := happly none (Or.inl rfl)
          simpa [update_expense, hc, hno'] using h
      · by_cases hval : validate_date d = true
        · have h := happly (some d) (Or.inr ⟨d, rfl, hval⟩)
          simpa [update_expense, hc, hval] using h
        · have hval' : validate_date d = false := by simpa using hval
          simpa [DateInv, update_expense, hc, hval'] using hInv

/-- Witness for C2 (amended): a valid `add` into the empty store yields an
invariant-satisfying state. -/
theorem C2_witness :
    Inv (add_expense ⟨"2024-01-20", "T", true⟩ ⟨[], 1, [], []⟩ "Coffee" 9).2 := by
  have h := (C2_ops_preserve_invariant ⟨"2024-01-20", "T", true⟩ ⟨[], 1, [], []⟩
    (by decide)).1
  exact h (by intro e he; simp at he) "Coffee" 9

/-- The listing loop succeeds when every stored date parses. -/
theorem listLoop_ok (l : List Expense)
    (h : ∀ e ∈ l, (pyYMD e.date).isSome = true) : listLoop l = .ok () := by
  induction l with
  | nil => rfl
  | cons e rest ih =>
      have he := h e (List.mem_cons_self e rest)
      rcases hm : pyYMD e.date with _ | ymd
      · rw [hm] at he
        simp at he
      · simp only [listLoop, hm]
        exact ih (fun x hx => h x (List.mem_cons_of_mem e hx))

/-- C3 counterexample: `list` over a store holding a malformed date string
terminates with an uncaught `ValueError` from `strptime` — only
`sqlite3.Error` is caught at the operation boundary. -/
theorem C3_counterexample :
    list_expenses ⟨[⟨1, "bad-date", "x", 1⟩], 2, [], []⟩
      = (.error .valueError, ⟨[⟨1, "bad-date", "x", 1⟩], 2, [], []⟩) := by decide

/-- C3 (amended): storage (`sqlite3.Error`) failures are caught, but a
malformed stored date faults `list` and a failed audit-log write faults
`delete`/`update`; when every stored date parses and log appends succeed, all
five operations finish without an uncaught exception. -/
theorem C3_no_fault_on_clean_state (env : Env) (st : TrackerState)
    (hdates : ∀ e ∈ st.store, (pyYMD e.date).isSome = true)
    (hlog : env.logWriteOk = true) :
    (∀ d a, isOk (add_expense env st d a).1 = true) ∧
    isOk (list_expenses st).1 = true ∧
    (∀ m, isOk (get_total_expenses st m).1 = true) ∧
    (∀ eid, isOk (delete_expense env st eid).1 = true) ∧
    (∀ eid a dsc dt, isOk (update_expense env st eid a dsc dt).1 = true) := by
  refine ⟨?_, ?_, ?_, ?_, ?_⟩
  · intro d a
    by_cases h1 : pyStrip d = ""
    · simp [add_expense, h1, isOk]
    · by_cases h2 : a ≤ 0 <;> simp [add_expense, h1, h2, isOk]
  · by_cases hemp : st.store.isEmpty
    · simp [list_expenses, hemp, isOk]
    · simp [list_expenses, hemp, listLoop_ok st.store hdates, isOk]
  · intro m
    rcases m with _ | m
    · by_cases hemp : st.store.isEmpty <;>
        simp [get_total_expenses, hemp, isOk]
    · simp only [get_total_expenses]
      split
      · simp [isOk]
      · split <;> simp [isOk]
  · intro eid
    rcases hc : check_id st eid with _ | e
    · simp [delete_expense, hc, isOk]
    · simp [delete_expense, hc, hlog, isOk]
  · intro eid a dsc dt
    rcases hc : check_id st eid with _ | e
    · simp [update_expense, hc, isOk]
    · rcases dt with _ | d
      · by_cases hno : (a.isNone && dsc.isNone) = true
        · simp [update_expense, hc, hno, isOk]
        · have hno' : (a.isNone && dsc.isNone) = false := by
            cases a <;> cases dsc <;> simp_all
          simp [update_expense, hc, hno', updateApply, hlog, isOk]
      · by_cases hval : validate_date d = true
        · simp [update_expense, hc, hval, updateApply, hlog, isOk]
        · have hval' : validate_date d = false := by simpa using hval
          simp [update_expense, hc, hval', isOk]

/-- Witness for C3 (amended) on a well-formed one-row store. -/
theorem C3_witness :
    isOk (list_expenses ⟨[⟨1, "2024-01-15", "x", 1⟩], 2, [], []⟩).1 = true :=
  (C3_no_fault_on_clean_state ⟨"2024-01-20", "T", true⟩
    ⟨[⟨1, "2024-01-15", "x", 1⟩], 2, [], []⟩ (by decide) rfl).2.1

/-- C10 counterexample: `2023-02-30` is not a parseable calendar date (the
program's own `strptime` check rejects it), yet the month-2 summary counts
the record rather than excluding it: SQLite's month extraction returns the
raw `02` field without calendar validation. -/
theorem C10_counterexample :
    pyYMD "2023-02-30" = none ∧
    get_total_expenses ⟨[⟨1, "2023-02-30", "x", 7⟩], 2, [], []⟩ (some 2)
      = (.ok (.totalMonth 2 7),
         ⟨[⟨1, "2023-02-30", "x", 7⟩], 2, [], []⟩) := by
  refine ⟨by decide, ?_⟩
  have hm : List.filter (fun e => sqlite_strftime_m e.date == some (pad2Int 2))
      [(⟨1, "2023-02-30", "x", 7⟩ : Expense)] = [⟨1, "2023-02-30", "x", 7⟩] := by
    decide
  simp [get_total_expenses, hm, sumAmounts]

/-- C10 (amended): for an in-range month, the summary silently ignores (with
no error, and state untouched) exactly the records whose stored date fails
SQLite's lexical screen — strictly padded `YYYY-MM-DD` digits with month
01–12 and day 01–31 — signalling "no expenses" when no record passes it; a
lexically conforming but calendar-invalid date still counts under its raw
month field. -/
theorem C10_month_filter_is_lexical (st : TrackerState) (m : Int)
    (h1 : 1 ≤ m) (h2 : m ≤ 12) :
    (get_total_expenses st (some m)).2 = st ∧
    (get_total_expenses st (some m)).1
      = (get_total_expenses
          ⟨st.store.filter (fun e => (sqlite_strftime_m e.date).isSome),
           st.nextId, st.deletionLog, st.updateLog⟩ (some m)).1 ∧
    ((∀ e ∈ st.store, sqlite_strftime_m e.date = none) →
       get_total_expenses st (some m) = (.ok .noExpensesRecorded, st)) := by
  have hm1 : ¬ m < 1 := not_lt.mpr h1
  have hm2 : ¬ m > 12 := not_lt.mpr h2
  have hred : ∀ st' : TrackerState,
      get_total_expenses st' (some m)
        = (if (st'.store.filter
                (fun e => sqlite_strftime_m e.date == some (pad2Int m))).isEmpty
             then ((.ok .noExpensesRecorded : Except PyErr Output), st')
             else (.ok (.totalMonth m (sumAmounts (st'.store.filter
                    (fun e => sqlite_strftime_m e.date == some (pad2Int m))))),
                   st')) := by
    intro st'
    simp [get_total_expenses, hm1, hm2]
  refine ⟨?_, ?_, ?_⟩
  · rw [hred st]
    split <;> rfl
  · have hff : (st.store.filter (fun e => (sqlite_strftime_m e.date).isSome)).filter
          (fun e => sqlite_strftime_m e.date == some (pad2Int m))
        = st.store.filter (fun e => sqlite_strftime_m e.date == some (pad2Int m)) := by
      rw [List.filter_filter]
      apply List.filter_congr
      intro e he
      rcases hse : sqlite_strftime_m e.date with _ | s <;> simp [hse]
    rw [hred st, hred ⟨st.store.filter (fun e => (sqlite_strftime_m e.date).isSome),
      st.nextId, st.deletionLog, st.updateLog⟩]
    simp only [hff]
    split <;> rfl
  · intro hmal
    have hnil : st.store.filter
        (fun e => sqlite_strftime_m e.date == some (pad2Int m)) = [] := by
      rw [List.filter_eq_nil_iff]
      intro e he
      simp [hmal e he]
    rw [hred st, hnil]
    rfl

/-- Witness for C10 (amended): a store whose only date is lexical garbage
summarizes to the "no expenses" outcome. -/
theorem C10_witness :
    get_total_expenses ⟨[⟨1, "garbage", "x", 3⟩], 2, [], []⟩ (some 4)
      = (.ok .noExpensesRecorded, ⟨[⟨1, "garbage", "x", 3⟩], 2, [], []⟩) :=
  (C10_month_filter_is_lexical ⟨[⟨1, "garbage", "x", 3⟩], 2, [], []⟩ 4
    (by norm_num) (by norm_num)).2.2 (by decide)

/-- C7 counterexample: `2023-2-5` passes the program's own date validation
(so `update` stores it), its month component is 2, yet the month-2 summary
reports "no expenses": SQLite's filter only matches strictly padded dates. -/
theorem C7_counterexample :
    validate_date "2023-2-5" = true ∧
    (update_expense ⟨"2024-01-20", "T", true⟩
        ⟨[⟨1, "2024-01-15", "Tea", 10⟩], 2, [], []⟩ 1 none none
        (some "2023-2-5")).2.store
      = [⟨1, "2023-2-5", "Tea", 10⟩] ∧
    pyMonth "2023-2-5" = some 2 ∧
    get_total_expenses ⟨[⟨1, "2023-2-5", "Tea", 10⟩], 2, [], []⟩ (some 2)
      = (.ok .noExpensesRecorded,
         ⟨[⟨1, "2023-2-5", "Tea", 10⟩], 2, [], []⟩) := by decide

/-- A digit character's code point lies between 48 and 57. -/
theorem digit_toNat_bounds {c : Char} (h : c.isDigit = true) :
    48 ≤ c.toNat ∧ c.toNat ≤ 57 := by
  simp only [Char.isDigit, Bool.and_eq_true, decide_eq_true_eq, ge_iff_le] at h
  obtain ⟨h1, h2⟩ := h
  rw [UInt32.le_def, BitVec.le_def] at h1 h2
  exact ⟨h1, h2⟩

/-- Code points in the digit range survive the `Char.ofNat` round trip. -/
theorem toNat_ofNat_digit (t : Nat) (h : t ≤ 9) :
    (Char.ofNat (48 + t)).toNat = 48 + t := by
  interval_cases t <;> decide

/-- A two-digit-character string equals the zero-padded rendering of an
in-range month exactly when its digit value is that month. -/
theorem month_chars_eq_iff (m1 m2 : Char) (h1 : m1.isDigit = true)
    (h2 : m2.isDigit = true) (m : Int) (hm1 : 1 ≤ m) (hm2 : m ≤ 12) :
    (String.mk [m1, m2] = pad2Int m) ↔ 10 * dVal m1 + dVal m2 = m.toNat := by
  have hb1 := digit_toNat_bounds h1
  have hb2 := digit_toNat_bounds h2
  have hr : pad2Int m = String.mk [Char.ofNat (48 + m.toNat / 10),
      Char.ofNat (48 + m.toNat % 10)] := by
    simp only [pad2Int, pad2Nat]
    rw [if_pos ⟨by omega, by omega⟩]
  rw [hr]
  constructor
  · intro hstr
    have hl : m1 = Char.ofNat (48 + m.toNat / 10)
        ∧ m2 = Char.ofNat (48 + m.toNat % 10) := by
      have hdata := congrArg String.data hstr
      simpa using hdata
    have t1 : m1.toNat = 48 + m.toNat / 10 := by
      rw [hl.1, toNat_ofNat_digit _ (by omega)]
    have t2 : m2.toNat = 48 + m.toNat % 10 := by
      rw [hl.2, toNat_ofNat_digit _ (by omega)]
    simp only [dVal]
    omega
  · intro hv
    simp only [dVal] at hv
    have t1 : m1.toNat = 48 + m.toNat / 10 := by omega
    have t2 : m2.toNat = 48 + m.toNat % 10 := by omega
    have e1 : m1 = Char.ofNat (48 + m.toNat / 10) := by
      rw [← t1, Char.ofNat_toNat]
    have e2 : m2 = Char.ofNat (48 + m.toNat % 10) := by
      rw [← t2, Char.ofNat_toNat]
    rw [e1, e2]

/-- The `BEq` on options compares the payloads of two `some`s. -/
theorem some_beq_some {α : Type} [BEq α] (x y : α) :
    (some x == some y) = (x == y) := rfl

/-- A date string that survives both screens matches the ten-character
strictly padded shape. -/
theorem sqlite_shape_of_isSome (s : String)
    (h : (sqlite_strftime_m s).isSome = true) :
    ∃ a b c d m1 m2 e1 e2,
      s.toList = [a, b, c, d, '-', m1, m2, '-', e1, e2] := by
  unfold sqlite_strftime_m at h
  split at h
  · next a b c d m1 m2 e1 e2 heq =>
      exact ⟨a, b, c, d, m1, m2, e1, e2, heq⟩
  · simp at h

/-- On a strictly valid date and an in-range month, the source's string-level
month filter (`strftime('%m', date) = f-02d of month`) agrees with the
month component of the date under the program's own parser. -/
theorem sqlite_month_agrees (s : String) (hs : strictValidDate s = true)
    (m : Int) (hm1 : 1 ≤ m) (hm2 : m ≤ 12) :
    (sqlite_strftime_m s == some (pad2Int m))
      = (pyMonth s == some m.toNat) := by
  have hsq : (sqlite_strftime_m s).isSome = true := by
    simp only [strictValidDate, Bool.and_eq_true] at hs
    exact hs.1
  have hpy : validate_date s = true := by
    simp only [strictValidDate, Bool.and_eq_true] at hs
    exact hs.2
  obtain ⟨a, b, c, d, m1, m2, e1, e2, heq⟩ := sqlite_shape_of_isSome s hsq
  have hsm : sqlite_strftime_m s
      = (if a.isDigit && b.isDigit && c.isDigit && d.isDigit
            && m1.isDigit && m2.isDigit && e1.isDigit && e2.isDigit then
           if 1 ≤ 10 * dVal m1 + dVal m2 && 10 * dVal m1 + dVal m2 ≤ 12
               && 1 ≤ 10 * dVal e1 + dVal e2 && 10 * dVal e1 + dVal e2 ≤ 31 then
             some (String.mk [m1, m2])
           else none
         else none) := by
    unfold sqlite_strftime_m
    simp only [heq]
  have hdig : (a.isDigit && b.isDigit && c.isDigit && d.isDigit
      && m1.isDigit && m2.isDigit && e1.isDigit && e2.isDigit) = true := by
    by_contra hcc
    rw [hsm, if_neg hcc] at hsq
    simp at hsq
  have hrange : (1 ≤ 10 * dVal m1 + dVal m2 && 10 * dVal m1 + dVal m2 ≤ 12
      && 1 ≤ 10 * dVal e1 + dVal e2 && 10 * dVal e1 + dVal e2 ≤ 31) = true := by
    by_contra hcc
    rw [hsm, if_pos hdig, if_neg hcc] at hsq
    simp at hsq
  have hsq' : sqlite_strftime_m s = some (String.mk [m1, m2]) := by
    rw [hsm, if_pos hdig, if_pos hrange]
  obtain ⟨⟨⟨⟨⟨⟨⟨hda, hdb⟩, hdc⟩, hdd⟩, hdm1⟩, hdm2⟩, hde1⟩, hde2⟩ := by
    simpa only [Bool.and_eq_true] using hdig
  obtain ⟨⟨⟨hr1, hr2⟩, hr3⟩, hr4⟩ := by
    simpa only [Bool.and_eq_true, decide_eq_true_eq] using hrange
  have hpm : pyMonth s = some (10 * dVal m1 + dVal m2) := by
    have hpy' : (pyYMD s).isSome = true := hpy
    have hmm : monthVal2 m1 m2 = some (10 * dVal m1 + dVal m2) := by
      simp only [monthVal2, hdm1, hdm2, Bool.and_self, if_true]
      rw [if_pos]
      simp only [Bool.and_eq_true, decide_eq_true_eq]
      exact ⟨hr1, hr2⟩
    have hYMD : pyYMD s
        = combineYMD (yearVal a b c d) (monthVal2 m1 m2) (dayVal2 e1 e2) := by
      unfold pyYMD
      simp only [heq]
    rw [hYMD] at hpy'
    rcases hy : yearVal a b c d with _ | y
    · rw [hy] at hpy'
      simp [combineYMD] at hpy'
    rcases hdy : dayVal2 e1 e2 with _ | dy
    · rw [hy, hdy] at hpy'
      simp [combineYMD] at hpy'
    rw [hy, hmm, hdy] at hpy'
    simp only [combineYMD, Option.bind_eq_bind, Option.some_bind] at hpy'
    by_cases hg : (1 ≤ y && dy ≤ daysInMonth y (10 * dVal m1 + dVal m2)) = true
    · unfold pyMonth
      rw [hYMD, hy, hmm, hdy]
      have hcomb : combineYMD (some y) (some (10 * dVal m1 + dVal m2)) (some dy)
          = some (y, 10 * dVal m1 + dVal m2, dy) := by
        simp only [combineYMD, Option.bind_eq_bind, Option.some_bind]
        rw [if_pos hg]
      rw [hcomb]
      rfl
    · rw [if_neg hg] at hpy'
      simp at hpy'
  by_cases hv : 10 * dVal m1 + dVal m2 = m.toNat
  · have hstr : String.mk [m1, m2] = pad2Int m :=
      (month_chars_eq_iff m1 m2 hdm1 hdm2 m hm1 hm2).mpr hv
    rw [hsq', hpm, hstr, hv]
    simp
  · have hstr : String.mk [m1, m2] ≠ pad2Int m :=
      fun hcon => hv ((month_chars_eq_iff m1 m2 hdm1 hdm2 m hm1 hm2).mp hcon)
    rw [hsq', hpm, some_beq_some, some_beq_some]
    have l1 : (String.mk [m1, m2] == pad2Int m) = false :=
      beq_eq_false_iff_ne.mpr hstr
    have l2 : ((10 * dVal m1 + dVal m2 : Nat) == m.toNat) = false :=
      beq_eq_false_iff_ne.mpr hv
    rw [l1, l2]

/-- C7 (amended): over a store whose dates are all strictly padded valid
`YYYY-MM-DD` strings, `summarize()` returns the sum of all amounts (or the
"no expenses" outcome on an empty store) and `summarize(month=m)` for
`m` in 1–12 sums exactly the records whose month component is `m` (or
signals "no expenses" when none matches).  A date stored in the unpadded
form the update validator also accepts falls outside this hypothesis and is
silently excluded (see the counterexample). -/
theorem C7_summary_sums_by_month (st : TrackerState)
    (h : ∀ e ∈ st.store, strictValidDate e.date = true) :
    (get_total_expenses st none
       = if st.store.isEmpty then (.ok .noExpensesRecorded, st)
         else (.ok (.totalAll (sumAmounts st.store)), st)) ∧
    (∀ m : Int, 1 ≤ m → m ≤ 12 →
       get_total_expenses st (some m)
         = (if (st.store.filter (fun e => pyMonth e.date == some m.toNat)).isEmpty
              then (.ok .noExpensesRecorded, st)
              else (.ok (.totalMonth m (sumAmounts (st.store.filter
                     (fun e => pyMonth e.date == some m.toNat)))), st))) := by
  constructor
  · by_cases hemp : st.store.isEmpty <;> simp [get_total_expenses, hemp]
  · intro m hm1 hm2
    have hfeq : st.store.filter
          (fun e => sqlite_strftime_m e.date == some (pad2Int m))
        = st.store.filter (fun e => pyMonth e.date == some m.toNat) :=
      List.filter_congr (fun e he => sqlite_month_agrees e.date (h e he) m hm1 hm2)
    have hm1' : ¬ m < 1 := not_lt.mpr hm1
    have hm2' : ¬ m > 12 := not_lt.mpr hm2
    simp only [get_total_expenses, hm1', hm2', hfeq]
    simp

/-- Witness for C7 (amended) on a one-row February store. -/
theorem C7_witness :
    get_total_expenses ⟨[⟨1, "2024-02-05", "Tea", 10⟩], 2, [], []⟩ (some 2)
      = (.ok (.totalMonth 2 10),
         ⟨[⟨1, "2024-02-05", "Tea", 10⟩], 2, [], []⟩) := by
  have h := (C7_summary_sums_by_month
    ⟨[⟨1, "2024-02-05", "Tea", 10⟩], 2, [], []⟩ (by decide)).2 2
    (by norm_num) (by norm_num)
  rw [h]
  have hf : List.filter (fun e => pyMonth e.date == some (2 : Int).toNat)
      [(⟨1, "2024-02-05", "Tea", 10⟩ : Expense)]
      = [⟨1, "2024-02-05", "Tea", 10⟩] := by decide
  rw [hf]
  simp [sumAmounts]

/-- C5: for every id absent from the store, both `delete(id)` and
`update(id, ...)` report the not-found outcome — a constructor distinct from
the validation and storage outcomes — and leave the store and both audit logs
(the whole state) unchanged. -/
theorem C5_not_found_short_circuits (env : Env) (st : TrackerState) (eid : Int)
    (h : check_id st eid = none) :
    delete_expense env st eid = (.ok .idNotFound, st) ∧
    (∀ a dsc dt, update_expense env st eid a dsc dt = (.ok .idNotFound, st)) ∧
    Output.idNotFound ≠ Output.invalidDateFormat ∧
    Output.idNotFound ≠ Output.invalidMonth ∧
    Output.idNotFound ≠ Output.errorEmptyDescription := by
  refine ⟨?_, ?_, by decide, by decide, by decide⟩
  · simp [delete_expense, h]
  · intro a dsc dt
    simp [update_expense, h]

/-- Witness for C5 at a concrete absent id. -/
theorem C5_witness :
    delete_expense ⟨"2024-01-20", "T", true⟩ ⟨[], 1, [], []⟩ 5
      = (.ok .idNotFound, ⟨[], 1, [], []⟩) :=
  (C5_not_found_short_circuits ⟨"2024-01-20", "T", true⟩ ⟨[], 1, [], []⟩ 5 rfl).1

/-- C6: `add` with a description that is empty after stripping, or with a
non-positive amount, reports the corresponding validation error and leaves the
state (in particular the record count) unchanged; with a valid pair it inserts
exactly one new row carrying that description, that amount and the current
local date, and touches nothing else. -/
theorem C6_add_validates_then_inserts (env : Env) (st : TrackerState) :
    (∀ d a, pyStrip d = "" →
       add_expense env st d a = (.ok .errorEmptyDescription, st)) ∧
    (∀ d a, pyStrip d ≠ "" → a ≤ 0 →
       add_expense env st d a = (.ok .errorNonPositiveAmount, st)) ∧
    (∀ d a, pyStrip d ≠ "" → 0 < a →
       add_expense env st d a =
         (.ok .addedOk,
          ⟨st.store ++ [⟨st.nextId, env.today, d, a⟩], st.nextId + 1,
           st.deletionLog, st.updateLog⟩)) := by
  refine ⟨?_, ?_, ?_⟩
  · intro d a h
    simp [add_expense, h]
  · intro d a h1 h2
    simp [add_expense, h1, h2]
  · intro d a h1 h2
    have h3 : ¬ a ≤ 0 := not_le.mpr h2
    simp [add_expense, h1, h3]

/-- Witness for C6: all three branches at concrete inputs. -/
theorem C6_witness :
    add_expense ⟨"2024-01-20", "T", true⟩ ⟨[], 1, [], []⟩ "  " 3
      = (.ok .errorEmptyDescription, ⟨[], 1, [], []⟩) ∧
    add_expense ⟨"2024-01-20", "T", true⟩ ⟨[], 1, [], []⟩ "Tea" 0
      = (.ok .errorNonPositiveAmount, ⟨[], 1, [], []⟩) ∧
    add_expense ⟨"2024-01-20", "T", true⟩ ⟨[], 1, [], []⟩ "Coffee" (9/2)
      = (.ok .addedOk, ⟨[⟨1, "2024-01-20", "Coffee", 9/2⟩], 2, [], []⟩) := by
  have h := C6_add_validates_then_inserts (⟨"2024-01-20", "T", true⟩ : Env)
    ⟨[], 1, [], []⟩
  refine ⟨h.1 "  " 3 (by decide), h.2.1 "Tea" 0 (by decide) le_rfl, ?_⟩
  have h3 := h.2.2 "Coffee" (9/2) (by decide) (by norm_num)
  simpa using h3

/-- C8: `summarize(month=m)` for any integer `m` outside 1–12 reports the
invalid-month validation error and leaves the whole state unchanged (the
check happens before the store is opened). -/
theorem C8_invalid_month_rejected (st : TrackerState) (m : Int)
    (h : m < 1 ∨ 12 < m) :
    get_total_expenses st (some m) = (.ok .invalidMonth, st) := by
  rcases h with h | h <;> simp [get_total_expenses, h]

/-- Witness for C8 at month 13. -/
theorem C8_witness :
    get_total_expenses ⟨[⟨1, "2024-01-15", "x", 1⟩], 2, [], []⟩ (some 13)
      = (.ok .invalidMonth, ⟨[⟨1, "2024-01-15", "x", 1⟩], 2, [], []⟩) :=
  C8_invalid_month_rejected _ 13 (Or.inr (by norm_num))

/-- C9: for an existing id and a date string rejected by `validate_date`,
`update` reports the invalid-date validation error before any mutation — the
store and both audit logs are unchanged — whatever other fields were
supplied. -/
theorem C9_update_rejects_bad_date (env : Env) (st : TrackerState) (eid : Int)
    (e : Expense) (hf : check_id st eid = some e) (d : String)
    (hd : validate_date d = false) (a : Option ℚ) (dsc : Option String) :
    update_expense env st eid a dsc (some d) = (.ok .invalidDateFormat, st) := by
  simp [update_expense, hf, hd]

/-- Witness for C9 with the spec's concrete string. -/
theorem C9_witness :
    update_expense ⟨"2024-01-20", "T", true⟩
        ⟨[⟨1, "2024-01-15", "X", 5⟩], 2, [], []⟩ 1 (some 7) none
        (some "not-a-date")
      = (.ok .invalidDateFormat, ⟨[⟨1, "2024-01-15", "X", 5⟩], 2, [], []⟩) :=
  C9_update_rejects_bad_date ⟨"2024-01-20", "T", true⟩
    ⟨[⟨1, "2024-01-15", "X", 5⟩], 2, [], []⟩ 1 ⟨1, "2024-01-15", "X", 5⟩
    (by decide) "not-a-date" (by decide) (some 7) none

end ExpenseTracker
